import Mathlib

/-!
Verification of the mein-idaas authentication core against its specification.

The Go source is shallowly embedded: UUIDs become abstract `Nat` identifiers,
`time.Time` values become `Nat` timestamps, Go byte strings become `List Nat`
where byte-level structure matters and `String` elsewhere.  Randomness
(`uuid.New`, `crypto/rand`) and the current clock are passed as explicit
inputs, and fallible store operations return `Except`.  The signing of JWTs
is abstracted away: a signed token is represented by its claims record, and
`util.HashToken` (a SHA-256 of the signed string) is an abstract function
parameter.
-/

namespace MeinIdaas

/-- Claims of an access token, from `dto.AuthClaims` as populated by
`util.GenerateTokens` / `util.GenerateAccessTokenOnly` (subject, roles,
issuer, audience, iat, exp). -/
structure AccessClaims where
  roles : List String
  subject : Nat
  expiresAt : Nat
  issuedAt : Nat
  issuer : String
  audience : List String
deriving DecidableEq, Repr

/-- Claims of a refresh token, from `dto.AuthClaims` as populated by
`util.GenerateTokens` / `util.SignRefreshToken` (subject, issuer, iat, exp,
jti); refresh tokens carry no roles and no audience. -/
structure RefreshClaims where
  subject : Nat
  expiresAt : Nat
  issuedAt : Nat
  issuer : String
  jti : Nat
deriving DecidableEq, Repr

/-- The `util.TokenPair` struct. -/
structure TokenPair where
  accessToken : AccessClaims
  refreshToken : RefreshClaims
  refreshID : Nat
deriving DecidableEq, Repr

/-- Startup configuration of `util/JWT_generator.go` and the grace period of
`AuthService.Refresh`: `JWT_ACCESS_TTL`, `JWT_REFRESH_TTL`,
`REFRESH_GRACE_PERIOD`, `JWT_ISSUER`. -/
structure JwtConfig where
  accessTTL : Nat
  refreshTTL : Nat
  gracePeriod : Nat
  issuer : String
deriving DecidableEq, Repr

/-- Go `util.GenerateTokens`: mints the access token (audience hard-coded to
`self-hosted-idaas`) and a refresh token whose jti is the freshly drawn
`refreshID` (`uuid.New()`, passed here as the explicit input
`newRefreshID`). -/
def GenerateTokens (cfg : JwtConfig) (now newRefreshID : Nat)
    (userID : Nat) (roles : List String) : TokenPair :=
  { accessToken :=
      { roles := roles
        subject := userID
        expiresAt := now + cfg.accessTTL
        issuedAt := now
        issuer := cfg.issuer
        audience := ["self-hosted-idaas"] }
    refreshToken :=
      { subject := userID
        expiresAt := now + cfg.refreshTTL
        issuedAt := now
        issuer := cfg.issuer
        jti := newRefreshID }
    refreshID := newRefreshID }

/-- Go `util.SignRefreshToken`: re-signs a refresh JWT for an existing refresh
token id. -/
def SignRefreshToken (cfg : JwtConfig) (now refreshID userID : Nat) :
    RefreshClaims :=
  { subject := userID
    expiresAt := now + cfg.refreshTTL
    issuedAt := now
    issuer := cfg.issuer
    jti := refreshID }

/-- Go `util.GenerateAccessTokenOnly`: the access token minted during the
grace-period path; its audience is hard-coded to
`[my-game-server, smoking-app]`. -/
def GenerateAccessTokenOnly (cfg : JwtConfig) (now userID : Nat)
    (roles : List String) : AccessClaims :=
  { roles := roles
    subject := userID
    expiresAt := now + cfg.accessTTL
    issuedAt := now
    issuer := cfg.issuer
    audience := ["my-game-server", "smoking-app"] }

deriving instance DecidableEq for Except

/-- The `model.RefreshToken` record. -/
structure RefreshToken where
  id : Nat
  userId : Nat
  tokenHash : String
  clientIP : String
  userAgent : String
  expiresAt : Nat
  replacedAt : Option Nat
  replacedByTokenId : Option Nat
  revokedAt : Option Nat
  createdAt : Nat
deriving DecidableEq, Repr

/-- The refresh-token table (`refresh_tokens`). -/
abbrev RefreshStore := List RefreshToken

/-- Go `repository.RefreshTokenRepository.GetByID` (`db.First` on the id). -/
def getByID (s : RefreshStore) (id : Nat) : Option RefreshToken :=
  s.find? (fun r => r.id == id)

/-- Go `repository.RefreshTokenRepository.Create`; the insert fails on a
primary-key collision. -/
def createRT (s : RefreshStore) (rt : RefreshToken) :
    Except String RefreshStore :=
  if s.any (fun r => r.id == rt.id) then .error "duplicate key value"
  else .ok (s ++ [rt])

/-- Go `repository.RefreshTokenRepository.Update` (`db.Save`); the database may
refuse the write, which is modelled by the oracle `updateOk`. -/
def updateRT (s : RefreshStore) (rt : RefreshToken) (updateOk : Bool) :
    Except String RefreshStore :=
  if updateOk then .ok (s.map fun r => if r.id == rt.id then rt else r)
  else .error "update failed"

/-- Go `repository.RefreshTokenRepository.Delete` (delete by id). -/
def deleteRT (s : RefreshStore) (id : Nat) : RefreshStore :=
  s.filter (fun r => r.id != id)

/-- A role row; only the `code` reaches the token claims. -/
structure Role where
  code : String
deriving DecidableEq, Repr

/-- The `model.Credential` record (fields used by the auth flows). -/
structure Credential where
  ctype : String
  value : String
deriving DecidableEq, Repr

/-- The `model.User` record with its eagerly loaded roles and credentials. -/
structure User where
  id : Nat
  name : String
  email : String
  isEmailVerified : Bool
  roles : List Role
  credentials : List Credential
deriving DecidableEq, Repr

/-- The role-code extraction loop (`for _, r := range user.Roles`). -/
def roleCodes (u : User) : List String := u.roles.map (fun r => r.code)

/-- Go `repository.UserRepository.GetByID`. -/
def getUserByID (users : List User) (id : Nat) : Option User :=
  users.find? (fun u => u.id == id)

/-- Go `repository.UserRepository.GetByEmail`. -/
def getUserByEmail (users : List User) (email : String) : Option User :=
  users.find? (fun u => u.email == email)

/-- One entry of the in-memory OTP store
(`repository.memVerificationRepo`); keys are user ids. -/
structure OtpItem where
  key : Nat
  code : String
  expiresAt : Nat
deriving DecidableEq, Repr

/-- The in-memory OTP store (`sync.Map` of `otpItem`). -/
abbrev OtpStore := List OtpItem

/-- Go `memVerificationRepo.Save`: `sync.Map.Store`, which overwrites any
existing entry for the key. -/
def otpSave (s : OtpStore) (key : Nat) (code : String) (expiresAt : Nat) :
    OtpStore :=
  if s.any (fun it => it.key == key) then
    s.map fun it => if it.key == key then ⟨key, code, expiresAt⟩ else it
  else s ++ [⟨key, code, expiresAt⟩]

/-- Go `memVerificationRepo.Delete`: `sync.Map.Delete`. -/
def otpDelete (s : OtpStore) (key : Nat) : OtpStore :=
  s.filter (fun it => it.key != key)

/-- Go `memVerificationRepo.Get`: not-found error, lazy deletion of expired
entries (`time.Now().After(expiresAt)`), otherwise the stored code. -/
def otpGet (s : OtpStore) (key : Nat) (now : Nat) :
    Except String String × OtpStore :=
  match s.find? (fun it => it.key == key) with
  | none => (.error "code not found", s)
  | some item =>
    if now > item.expiresAt then (.error "code expired", otpDelete s key)
    else (.ok item.code, s)

/-- Go `VerificationService.VerifyCode`: get, compare, and on success delete the
entry to prevent replay. -/
def VerifyCode (s : OtpStore) (userID : Nat) (inputCode : String)
    (now : Nat) : Except String Unit × OtpStore :=
  match otpGet s userID now with
  | (.error e, s1) => (.error e, s1)
  | (.ok savedCode, s1) =>
    if savedCode ≠ inputCode then (.error "invalid verification code", s1)
    else (.ok (), otpDelete s1 userID)

/-- The `dto.LoginResponse` / `dto.RefreshResponse` shape. -/
structure TokenResponse where
  accessToken : AccessClaims
  refreshToken : RefreshClaims
  expiresIn : Nat
deriving DecidableEq, Repr

/-- Go `AuthService.Login`.  `cmp` abstracts `util.ComparePassword` (true =
match), `hashToken` abstracts `util.HashToken`, `otpCode` is the random
6-digit code drawn inside `VerificationService.SendVerificationCode`, and
`newRefreshID` is the `uuid.New()` drawn inside `GenerateTokens`.  The OTP
save uses the 5-minute TTL of `SendVerificationCode` (300 seconds). -/
def Login (cfg : JwtConfig) (hashToken : RefreshClaims → String)
    (cmp : String → String → Bool) (users : List User)
    (store : RefreshStore) (otp : OtpStore)
    (email password otpCode : String) (newRefreshID now : Nat)
    (clientIP userAgent : String) :
    Except String TokenResponse × RefreshStore × OtpStore :=
  match getUserByEmail users email with
  | none => (.error "invalid credentials", store, otp)
  | some user =>
    match user.credentials.find? (fun c => c.ctype == "password") with
    | none => (.error "invalid credentials", store, otp)
    | some pwCred =>
      if ¬ cmp pwCred.value password then
        (.error "invalid credentials", store, otp)
      else if ¬ user.isEmailVerified then
        (.error "email not verified", store,
          otpSave otp user.id otpCode (now + 300))
      else
        let pair := GenerateTokens cfg now newRefreshID user.id
          (roleCodes user)
        let rt : RefreshToken :=
          { id := pair.refreshID
            userId := user.id
            tokenHash := hashToken pair.refreshToken
            clientIP := clientIP
            userAgent := userAgent
            expiresAt := now + cfg.refreshTTL
            replacedAt := none
            replacedByTokenId := none
            revokedAt := none
            createdAt := now }
        match createRT store rt with
        | .error e => (.error e, store, otp)
        | .ok store1 =>
          (.ok { accessToken := pair.accessToken
                 refreshToken := pair.refreshToken
                 expiresIn := cfg.accessTTL }, store1, otp)

/-- Go `AuthService.Refresh`, the rotation state machine.  `parseResult` is the
outcome of `util.ParseRefreshToken` on the presented JWT; `t1` is the clock
reading used for the grace check and for minting/creating, `t2` the later
`now := time.Now()` used to stamp the parent as replaced; `newRefreshID` is
the `uuid.New()` drawn inside `GenerateTokens`; `updateOk` is the oracle for
the critical `Update`. -/
def Refresh (cfg : JwtConfig) (hashToken : RefreshClaims → String)
    (users : List User) (store : RefreshStore)
    (parseResult : Option (Nat × Nat)) (newRefreshID : Nat)
    (updateOk : Bool) (t1 t2 : Nat) (clientIP userAgent : String) :
    Except String TokenResponse × RefreshStore :=
  match parseResult with
  | none => (.error "invalid refresh token", store)
  | some (userIDFromToken, refreshID) =>
    match getByID store refreshID with
    | none => (.error "invalid or unknown refresh token", store)
    | some existing =>
      if existing.userId ≠ userIDFromToken then
        (.error "user mismatch", store)
      else if existing.revokedAt.isSome then
        (.error "token was revoked", store)
      else
        match existing.replacedAt with
        | some replacedAt =>
          -- grace period and reuse detection
          if t1 - replacedAt > cfg.gracePeriod then
            (.error "refresh token reuse detected: account locked for security",
              store)
          else
            match existing.replacedByTokenId with
            | none =>
              (.error "system inconsistency: replaced timestamp set but no replacement ID",
                store)
            | some childID =>
              match getByID store childID with
              | none => (.error "child token not found", store)
              | some childToken =>
                match getUserByID users existing.userId with
                | none => (.error "failed to fetch user", store)
                | some user =>
                  let newAccessToken :=
                    GenerateAccessTokenOnly cfg t1 user.id (roleCodes user)
                  let refreshTokenString :=
                    SignRefreshToken cfg t1 childToken.id childToken.userId
                  (.ok { accessToken := newAccessToken
                         refreshToken := refreshTokenString
                         expiresIn := cfg.accessTTL }, store)
        | none =>
          -- normal rotation
          match getUserByID users existing.userId with
          | none => (.error "user not found", store)
          | some user =>
            let pair := GenerateTokens cfg t1 newRefreshID existing.userId
              (roleCodes user)
            let newRT : RefreshToken :=
              { id := pair.refreshID
                userId := existing.userId
                tokenHash := hashToken pair.refreshToken
                clientIP := clientIP
                userAgent := userAgent
                expiresAt := t1 + cfg.refreshTTL
                replacedAt := none
                replacedByTokenId := none
                revokedAt := none
                createdAt := t1 }
            match createRT store newRT with
            | .error e => (.error e, store)
            | .ok store1 =>
              let updated :=
                { existing with
                  replacedAt := some t2
                  replacedByTokenId := some pair.refreshID }
              match updateRT store1 updated updateOk with
              | .error _ =>
                (.error "failed to rotate token", deleteRT store1 newRT.id)
              | .ok store2 =>
                (.ok { accessToken := pair.accessToken
                       refreshToken := pair.refreshToken
                       expiresIn := cfg.accessTTL }, store2)

/-- The cookie effect of an HTTP handler on the `refresh_token` cookie. -/
inductive CookieAction where
  | keep
  | set (value : RefreshClaims)
  | clear
deriving DecidableEq, Repr

/-- Status code plus cookie effect of a handler run. -/
structure HttpResult where
  status : Nat
  cookie : CookieAction
deriving DecidableEq, Repr

/-- Go `AuthController.Refresh`: missing cookie gives 400; on a service error
the cookie is cleared and the error string is matched against
`invalid or unknown refresh token` and `refresh token expired or revoked`
to pick 401, anything else giving 500; on success the cookie is rotated. -/
def ControllerRefresh (cfg : JwtConfig) (hashToken : RefreshClaims → String)
    (users : List User) (store : RefreshStore) (cookieMissing : Bool)
    (parseResult : Option (Nat × Nat)) (newRefreshID : Nat)
    (updateOk : Bool) (t1 t2 : Nat) (clientIP userAgent : String) :
    HttpResult × RefreshStore :=
  if cookieMissing then ({ status := 400, cookie := .keep }, store)
  else
    match Refresh cfg hashToken users store parseResult newRefreshID
        updateOk t1 t2 clientIP userAgent with
    | (.error e, store1) =>
      ({ status :=
           if e == "invalid or unknown refresh token"
               || e == "refresh token expired or revoked" then 401 else 500
         cookie := .clear }, store1)
    | (.ok res, store1) =>
      ({ status := 200, cookie := .set res.refreshToken }, store1)

/-- One request against the auth engine, with all its sources of
nondeterminism (clock readings, freshly drawn uuids, OTP codes, database
verdicts) made explicit. -/
inductive AuthOp where
  | login (email password otpCode : String) (newRefreshID now : Nat)
      (clientIP userAgent : String)
  | refresh (parseResult : Option (Nat × Nat)) (newRefreshID : Nat)
      (updateOk : Bool) (t1 t2 : Nat) (clientIP userAgent : String)

/-- Within one `Refresh` request the second clock reading (`t2`, taken just
before the parent is stamped as replaced) is not earlier than the first
(`t1`, used when the child is created). -/
def AuthOp.timeOk : AuthOp → Prop
  | .login _ _ _ _ _ _ _ => True
  | .refresh _ _ _ t1 t2 _ _ => t1 ≤ t2

instance : DecidablePred AuthOp.timeOk := fun op => by
  cases op with
  | login email password otpCode newRefreshID now clientIP userAgent =>
    exact isTrue trivial
  | refresh parseResult newRefreshID updateOk t1 t2 clientIP userAgent =>
    exact decidable_of_iff (t1 ≤ t2) Iff.rfl

/-- Effect of one operation on the refresh and OTP stores. -/
def applyOp (cfg : JwtConfig) (hashToken : RefreshClaims → String)
    (cmp : String → String → Bool) (users : List User)
    (s : RefreshStore × OtpStore) (op : AuthOp) :
    RefreshStore × OtpStore :=
  match op with
  | .login email password otpCode newRefreshID now clientIP userAgent =>
    let r := Login cfg hashToken cmp users s.1 s.2 email password otpCode
      newRefreshID now clientIP userAgent
    (r.2.1, r.2.2)
  | .refresh parseResult newRefreshID updateOk t1 t2 clientIP userAgent =>
    let r := Refresh cfg hashToken users s.1 parseResult newRefreshID
      updateOk t1 t2 clientIP userAgent
    (r.2, s.2)

/-- The stores produced by a sequence of login and refresh requests starting
from empty stores. -/
def runOps (cfg : JwtConfig) (hashToken : RefreshClaims → String)
    (cmp : String → String → Bool) (users : List User)
    (ops : List AuthOp) : RefreshStore × OtpStore :=
  ops.foldl (applyOp cfg hashToken cmp users) ([], [])

/-- The rotation-lineage invariant exactly as the specification states it:
a replaced record points to an existing record of the same owner whose
`created_at` is at or after the `replaced_at` of the parent. -/
def recOkClaim (s : RefreshStore) (r : RefreshToken) : Prop :=
  r.replacedAt.elim True fun t =>
    ∃ c ∈ s, r.replacedByTokenId = some c.id ∧ c.userId = r.userId ∧
      t ≤ c.createdAt

instance (s : RefreshStore) (r : RefreshToken) :
    Decidable (recOkClaim s r) := by
  unfold recOkClaim
  cases r.replacedAt with
  | none => exact isTrue trivial
  | some t =>
    exact decidable_of_iff
      (∃ c ∈ s, r.replacedByTokenId = some c.id ∧ c.userId = r.userId ∧
        t ≤ c.createdAt) Iff.rfl

/-- The invariant of the specification quantified over a whole store. -/
def chainInvClaim (s : RefreshStore) : Prop := ∀ r ∈ s, recOkClaim s r

instance (s : RefreshStore) : Decidable (chainInvClaim s) :=
  List.decidableBAll _ s

/-- The lineage invariant with the timestamp comparison the code actually
establishes: the child is created at or before the instant the parent is
stamped as replaced. -/
def recOk (s : RefreshStore) (r : RefreshToken) : Prop :=
  r.replacedAt.elim True fun t =>
    ∃ c ∈ s, r.replacedByTokenId = some c.id ∧ c.userId = r.userId ∧
      c.createdAt ≤ t

instance (s : RefreshStore) (r : RefreshToken) : Decidable (recOk s r) := by
  unfold recOk
  cases r.replacedAt with
  | none => exact isTrue trivial
  | some t =>
    exact decidable_of_iff
      (∃ c ∈ s, r.replacedByTokenId = some c.id ∧ c.userId = r.userId ∧
        c.createdAt ≤ t) Iff.rfl

/-- The corrected invariant quantified over a whole store. -/
def chainInv (s : RefreshStore) : Prop := ∀ r ∈ s, recOk s r

instance (s : RefreshStore) : Decidable (chainInv s) :=
  List.decidableBAll _ s

/-- Auxiliary well-formedness carried through the reachability proof:
record ids are unique and the corrected lineage invariant holds. -/
def storeWf (s : RefreshStore) : Prop :=
  (s.map fun r => r.id).Nodup ∧ chainInv s

/-- Go `util.GenerateRandomPassword`: each random byte indexes the 70-character
charset `a-z A-Z 0-9 !@#$%^&*` modulo its length. -/
def passwordCharset : List Char :=
  "abcdefghijklmnopqrstuvwxyzABCDEFGHIJKLMNOPQRSTUVWXYZ0123456789!@#$%^&*".data

/-- Go `util.GenerateRandomPassword` applied to the bytes drawn from
`crypto/rand` (the caller makes `length` of them). -/
def GenerateRandomPassword (randomBytes : List Nat) : List Char :=
  randomBytes.map fun b => passwordCharset.getD (b % passwordCharset.length) ' '

/-- Hex value of a character, as accepted by the `xtob` table of `uuid.Parse`
(digits and both letter cases). -/
def hexVal (c : Char) : Option Nat :=
  if '0' ≤ c ∧ c ≤ '9' then some (c.toNat - 48)
  else if 'a' ≤ c ∧ c ≤ 'f' then some (c.toNat - 87)
  else if 'A' ≤ c ∧ c ≤ 'F' then some (c.toNat - 55)
  else none

/-- Read `n` bytes, each written as two hex characters, returning the bytes
and the remaining characters. -/
def readHexBytes : Nat → List Char → Option (List Nat × List Char)
  | 0, rest => some ([], rest)
  | n + 1, c1 :: c2 :: rest =>
    match hexVal c1, hexVal c2, readHexBytes n rest with
    | some hi, some lo, some (bs, r) => some ((16 * hi + lo) :: bs, r)
    | _, _, _ => none
  | _ + 1, _ => none

/-- The canonical 8-4-4-4-12 form with dashes, as checked by `uuid.Parse`. -/
def parseCanonical (s : List Char) : Option (List Nat) :=
  match readHexBytes 4 s with
  | some (b1, '-' :: r1) =>
    match readHexBytes 2 r1 with
    | some (b2, '-' :: r2) =>
      match readHexBytes 2 r2 with
      | some (b3, '-' :: r3) =>
        match readHexBytes 2 r3 with
        | some (b4, '-' :: r4) =>
          match readHexBytes 6 r4 with
          | some (b5, []) => some (b1 ++ b2 ++ b3 ++ b4 ++ b5)
          | _ => none
        | _ => none
      | _ => none
    | _ => none
  | _ => none

/-- ASCII lowering, for the case-insensitive `urn:uuid:` comparison. -/
def lowerChar (c : Char) : Char :=
  if 'A' ≤ c ∧ c ≤ 'Z' then Char.ofNat (c.toNat + 32) else c

/-- Go `uuid.Parse` from github.com/google/uuid: accepts the 36-character
canonical form, the 45-character `urn:uuid:` form, the 38-character braced
form, and the 32-character dashless form; anything else is an error.  The
result is the 16 bytes of the UUID. -/
def uuidParse (s : List Char) : Option (List Nat) :=
  if s.length = 36 then parseCanonical s
  else if s.length = 45 then
    if (s.take 9).map lowerChar = "urn:uuid:".data then
      parseCanonical (s.drop 9)
    else none
  else if s.length = 38 then
    match s with
    | c :: rest =>
      if c = Char.ofNat 123 ∧ rest.getLast? = some (Char.ofNat 125) then
        parseCanonical rest.dropLast
      else none
    | [] => none
  else if s.length = 32 then
    match readHexBytes 16 s with
    | some (bs, []) => some bs
    | _ => none
  else none

/-- Go `uuid.Nil`, the all-zero UUID. -/
def uuidNil : List Nat := List.replicate 16 0

/-- The claims fields `ParseRefreshToken` reads from the decoded JWT:
the registered `Subject` and `ID` (jti). -/
structure RawClaims where
  subject : String
  jti : String
deriving DecidableEq, Repr

/-- Go `util.ParseRefreshToken` after the signature check: `parsed` is the
outcome of `jwt.ParseWithClaims` (`none` when the token is invalid or
expired), then the subject and jti are required to be present and to parse
as UUIDs. -/
def ParseRefreshToken (parsed : Option RawClaims) :
    Except String (List Nat × List Nat) :=
  match parsed with
  | none => .error "invalid or expired refresh token"
  | some claims =>
    if claims.subject = "" then
      .error "missing subject (user_id) in refresh token"
    else if claims.jti = "" then
      .error "missing jti in refresh token"
    else
      match uuidParse claims.subject.data with
      | none => .error "invalid user_id format in token"
      | some userID =>
        match uuidParse claims.jti.data with
        | none => .error "invalid jti format in token"
        | some refreshID => .ok (userID, refreshID)

end MeinIdaas

namespace Argon2

/-!
Byte-level embedding of `util` password hashing (the revision whose
`ComparePassword` re-derives the key with the parameters parsed from the
stored hash).  Go strings are `List Nat` of bytes here.  The memory-hard
KDF `argon2.IDKey` is a library function outside this repository; it enters as an
explicit function argument `idKey` taking password, salt, time, memory,
threads and key length.
-/

/-- Bytes of a string literal (all our literals are ASCII). -/
def strBytes (s : String) : List Nat := s.data.map Char.toNat

/-- Go `strings.Split` with a one-byte separator. -/
def splitOnB (sep : Nat) : List Nat → List (List Nat)
  | [] => [[]]
  | b :: rest =>
    if b = sep then [] :: splitOnB sep rest
    else
      match splitOnB sep rest with
      | [] => [[b]]
      | g :: gs => (b :: g) :: gs

/-- Decimal digits of `n`, most significant first, as ASCII bytes
(`fmt.Sprintf` with `%d`). -/
def natToDigitsB (n : Nat) : List Nat :=
  if h : n < 10 then [48 + n]
  else natToDigitsB (n / 10) ++ [48 + n % 10]
termination_by n
decreasing_by exact Nat.div_lt_self (by omega) (by omega)

/-- Accumulating decimal scan of `strconv.ParseUint` (base 10). -/
def parseDecAux : Nat → List Nat → Option Nat
  | acc, [] => some acc
  | acc, c :: cs =>
    if 48 ≤ c ∧ c ≤ 57 then parseDecAux (10 * acc + (c - 48)) cs else none

/-- Go `strconv.ParseUint(s, 10, bitSize)`: errors on an empty string, on a
non-digit and on overflow of the requested bit size. -/
def parseUintB (s : List Nat) (bitSize : Nat) : Option Nat :=
  match s with
  | [] => none
  | _ =>
    match parseDecAux 0 s with
    | none => none
    | some v => if v < 2 ^ bitSize then some v else none

/-- ASCII whitespace test of `strings.TrimSpace`. -/
def isSpaceB (c : Nat) : Bool :=
  c = 32 || c = 9 || c = 10 || c = 11 || c = 12 || c = 13

/-- Go `strings.TrimSpace` (our inputs are ASCII). -/
def trimSpaceB (s : List Nat) : List Nat :=
  ((s.dropWhile isSpaceB).reverse.dropWhile isSpaceB).reverse

/-- Lowercase hex digit of a nibble (`encoding/hex` encodes lowercase). -/
def hexDigB (d : Nat) : Nat := if d < 10 then 48 + d else 87 + d

/-- Go `hex.EncodeToString`: two lowercase hex characters per byte. -/
def hexEncodeB : List Nat → List Nat
  | [] => []
  | b :: bs => hexDigB (b / 16) :: hexDigB (b % 16) :: hexEncodeB bs

/-- Hex value of one byte-character, accepting both letter cases
(`encoding/hex` decoding). -/
def hexValB (c : Nat) : Option Nat :=
  if 48 ≤ c ∧ c ≤ 57 then some (c - 48)
  else if 97 ≤ c ∧ c ≤ 102 then some (c - 87)
  else if 65 ≤ c ∧ c ≤ 70 then some (c - 55)
  else none

/-- Go `hex.DecodeString`: errors on odd length or an invalid character. -/
def hexDecodeB : List Nat → Option (List Nat)
  | [] => some []
  | c1 :: c2 :: rest =>
    match hexValB c1, hexValB c2, hexDecodeB rest with
    | some hi, some lo, some bs => some ((16 * hi + lo) :: bs)
    | _, _, _ => none
  | [_] => none

/-- The `util.Argon2Params` struct extracted from a stored hash. -/
structure Argon2Params where
  time : Nat
  memory : Nat
  threads : Nat
  keyLength : Nat
deriving DecidableEq, Repr

/-- The process-wide parameters set up by `util.InitArgon2Params`
(defaults `t=3, m=65536, p=4, keylen=32`). -/
structure Argon2Globals where
  time : Nat
  memory : Nat
  threads : Nat
  keyLength : Nat
deriving DecidableEq, Repr

/-- One iteration of the `parseArgon2ParamString` loop: split the pair on
`=`, skip it unless it has exactly two fields, trim, and update the matching
parameter when its value parses. -/
def applyParamPair (params : Argon2Params) (pair : List Nat) :
    Argon2Params :=
  match splitOnB 61 pair with
  | [k, v] =>
    let key := trimSpaceB k
    let val := trimSpaceB v
    if key = strBytes "m" then
      match parseUintB val 32 with
      | some n => { params with memory := n }
      | none => params
    else if key = strBytes "t" then
      match parseUintB val 32 with
      | some n => { params with time := n }
      | none => params
    else if key = strBytes "p" then
      match parseUintB val 8 with
      | some n => { params with threads := n }
      | none => params
    else params
  | _ => params

/-- Go `util.parseArgon2ParamString`: fold the comma-separated pairs starting
from a zero record with the default key length 32, then reject zero values
for the three required parameters. -/
def parseArgon2ParamString (paramStr : List Nat) :
    Except String Argon2Params :=
  let params := (splitOnB 44 paramStr).foldl applyParamPair
    { time := 0, memory := 0, threads := 0, keyLength := 32 }
  if params.memory = 0 ∨ params.time = 0 ∨ params.threads = 0 then
    .error "invalid argon2 parameters in hash"
  else .ok params

/-- Go `util.encodeArgon2Hash`:
`$argon2id$v=19$m=<memory>,t=<time>,p=<threads>$<salt_hex>$<hash_hex>`. -/
def encodeArgon2Hash (memory time threads : Nat) (salt hash : List Nat) :
    List Nat :=
  strBytes "$argon2id$v=19$m=" ++ natToDigitsB memory ++
    strBytes ",t=" ++ natToDigitsB time ++
    strBytes ",p=" ++ natToDigitsB threads ++
    strBytes "$" ++ hexEncodeB salt ++ strBytes "$" ++ hexEncodeB hash

/-- Go `util.decodeArgon2Hash`: split on `$`, require six parts with
`argon2id` second, parse the parameter section and hex-decode salt and
hash. -/
def decodeArgon2Hash (encoded : List Nat) :
    Except String (List Nat × List Nat × Argon2Params) :=
  match splitOnB 36 encoded with
  | [_, p1, _, p3, p4, p5] =>
    if p1 = strBytes "argon2id" then
      match parseArgon2ParamString p3 with
      | .error e => .error e
      | .ok params =>
        match hexDecodeB p4 with
        | none => .error "invalid salt encoding"
        | some salt =>
          match hexDecodeB p5 with
          | none => .error "invalid hash encoding"
          | some hash => .ok (salt, hash, params)
    else .error "invalid argon2 hash format"
  | _ => .error "invalid argon2 hash format"

/-- Go `util.constantTimeCompare`: length check, then OR together the XORs. -/
def constantTimeCompare (a b : List Nat) : Bool :=
  if a.length ≠ b.length then false
  else ((List.zipWith (fun x y => x ^^^ y) a b).foldl
    (fun r x => r ||| x) 0) == 0

/-- Go `util.HashPassword`: reject the empty password, derive the key with the
current global parameters and encode everything into the self-describing
string.  The random salt drawn by `generateSalt` is the input `salt`. -/
def HashPassword (idKey : List Nat → List Nat → Nat → Nat → Nat → Nat → List Nat)
    (g : Argon2Globals) (salt password : List Nat) :
    Except String (List Nat) :=
  if password = [] then .error "empty password"
  else
    let hash := idKey password salt g.time g.memory g.threads g.keyLength
    .ok (encodeArgon2Hash g.memory g.time g.threads salt hash)

/-- Go `util.ComparePassword`: decode the stored hash, re-derive the key with
the parameters parsed from it (never with the current globals, which this
function does not even receive) and compare in constant time. -/
def ComparePassword (idKey : List Nat → List Nat → Nat → Nat → Nat → Nat → List Nat)
    (hashed plain : List Nat) : Except String Unit :=
  match decodeArgon2Hash hashed with
  | .error e => .error e
  | .ok (salt, hash, params) =>
    let computed := idKey plain salt params.time params.memory params.threads
      params.keyLength
    if ¬ constantTimeCompare hash computed then .error "invalid password"
    else .ok ()

end Argon2

namespace MeinIdaas

/-! Concrete fixtures used to instantiate the theorems below. -/

/-- The documented default configuration: `access_ttl = 15m` (900 s),
`refresh_ttl = 168h` (604800 s), `grace_period = 10s`, issuer
`mein-idaas`. -/
def cfg0 : JwtConfig := ⟨900, 604800, 10, "mein-idaas"⟩

/-- A fixed stand-in for `util.HashToken`. -/
def hashToken0 : RefreshClaims → String := fun _ => "tokenhash"

/-- A password comparator that accepts (stands in for a matching
credential). -/
def cmp0 : String → String → Bool := fun _ _ => true

/-- A verified test user with the default role. -/
def user0 : User := ⟨1, "Ada", "ada@x.test", true, [⟨"user"⟩], [⟨"password", "stored"⟩]⟩

/-- The same user before email verification. -/
def userUnverified : User :=
  ⟨1, "Ada", "ada@x.test", false, [⟨"user"⟩], [⟨"password", "stored"⟩]⟩

/-- A store holding one revoked refresh record of user 1. -/
def storeRevoked : RefreshStore :=
  [⟨10, 1, "h", "ip", "ua", 604800, none, none, some 5, 0⟩]

/-- A store holding a replaced parent (rotated at time 0) and its child. -/
def storeReplaced : RefreshStore :=
  [⟨10, 1, "h", "ip", "ua", 604800, some 0, some 11, none, 0⟩,
   ⟨11, 1, "h2", "ip", "ua", 604800, none, none, none, 0⟩]

/-- A login followed by a rotation whose two clock readings are 5 and 7. -/
def ops0 : List AuthOp :=
  [.login "ada@x.test" "pw" "123456" 10 0 "ip" "ua",
   .refresh (some (1, 10)) 11 true 5 7 "ip" "ua"]

end MeinIdaas

namespace Argon2

/-- A concrete stand-in for `argon2.IDKey` whose output length is the
requested key length. -/
def idKey0 : List Nat → List Nat → Nat → Nat → Nat → Nat → List Nat :=
  fun _ _ _ _ _ keyLen => List.replicate keyLen 7

/-- The documented default global parameters. -/
def g0 : Argon2Globals := ⟨3, 65536, 4, 32⟩

/-- A raised cost setting (for the changed-parameters witness). -/
def g1 : Argon2Globals := ⟨5, 131072, 8, 32⟩

/-- A 16-byte salt. -/
def salt0 : List Nat := List.replicate 16 1

/-- A test password. -/
def password0 : List Nat := strBytes "hunter2x"

end Argon2

namespace MeinIdaas

/-!  Theorems.  -/

/-- Claim C8: every issued access token carries subject, roles, issuer, iat
and `exp = now + access_ttl`, and in particular the grace-period access
token carries the same audience as a login access token.  The code violates
the audience part: a login access token is minted with audience
`[self-hosted-idaas]` while `GenerateAccessTokenOnly` (the grace-period
path, whose own comment promises a token that looks exactly like a normal
login token) hard-codes `[my-game-server, smoking-app]`.  All other claimed
fields agree. -/
theorem accessToken_audience_mismatch :
    (GenerateTokens cfg0 100 2 1 ["user"]).accessToken.subject = 1 ∧
    (GenerateTokens cfg0 100 2 1 ["user"]).accessToken.roles = ["user"] ∧
    (GenerateTokens cfg0 100 2 1 ["user"]).accessToken.issuer = "mein-idaas" ∧
    (GenerateTokens cfg0 100 2 1 ["user"]).accessToken.issuedAt = 100 ∧
    (GenerateTokens cfg0 100 2 1 ["user"]).accessToken.expiresAt = 100 + 900 ∧
    (GenerateTokens cfg0 100 2 1 ["user"]).accessToken.audience =
      ["self-hosted-idaas"] ∧
    (GenerateAccessTokenOnly cfg0 100 1 ["user"]).subject = 1 ∧
    (GenerateAccessTokenOnly cfg0 100 1 ["user"]).roles = ["user"] ∧
    (GenerateAccessTokenOnly cfg0 100 1 ["user"]).issuer = "mein-idaas" ∧
    (GenerateAccessTokenOnly cfg0 100 1 ["user"]).issuedAt = 100 ∧
    (GenerateAccessTokenOnly cfg0 100 1 ["user"]).expiresAt = 100 + 900 ∧
    (GenerateAccessTokenOnly cfg0 100 1 ["user"]).audience =
      ["my-game-server", "smoking-app"] ∧
    (GenerateAccessTokenOnly cfg0 100 1 ["user"]).audience ≠
      (GenerateTokens cfg0 100 2 1 ["user"]).accessToken.audience := by
  decide

/-- Claim C9: the temporary-password generator is claimed to draw from a
letters-and-digits-only alphabet.  The charset in the code additionally contains
the eight specials of its tail: the random byte 62 (possible for each of
the eight positions) selects the character at index 62, which is not
alphanumeric.  The length-8 part of the claim holds. -/
theorem generateRandomPassword_not_alphanumeric :
    (GenerateRandomPassword (List.replicate 8 62)).length = 8 ∧
    (GenerateRandomPassword (List.replicate 8 62)).all
      (fun c => decide (c ∈ passwordCharset)) = true ∧
    (GenerateRandomPassword (List.replicate 8 62)).head? = some (Char.ofNat 33) ∧
    (Char.ofNat 33).isAlphanum = false := by
  decide

/-- For every byte list of length 8, the generated password has exactly 8
characters drawn from the 70-character charset (the part of claim C9 that
does hold, at any random input). -/
theorem generateRandomPassword_length (bytes : List Nat)
    (h : bytes.length = 8) :
    (GenerateRandomPassword bytes).length = 8 ∧
    ∀ c ∈ GenerateRandomPassword bytes, c ∈ passwordCharset := by
  constructor
  · simpa [GenerateRandomPassword] using h
  · intro c hc
    simp only [GenerateRandomPassword, List.mem_map] at hc
    obtain ⟨b, _, rfl⟩ := hc
    have hlt : b % passwordCharset.length < passwordCharset.length :=
      Nat.mod_lt _ (by decide)
    rw [List.getD_eq_getElem _ _ hlt]
    exact List.getElem_mem hlt

/-- After `Delete`, no entry for the key can be found. -/
theorem otpDelete_find (s : OtpStore) (u : Nat) :
    (otpDelete s u).find? (fun it => it.key == u) = none := by
  rw [List.find?_eq_none]
  intro it hmem
  have := List.of_mem_filter hmem
  simpa using this

/-- After `Save`, looking the key up yields exactly the saved entry. -/
theorem otpSave_find (s : OtpStore) (k : Nat) (code : String) (e : Nat) :
    (otpSave s k code e).find? (fun it => it.key == k) =
      some ⟨k, code, e⟩ := by
  unfold otpSave
  by_cases h : s.any (fun it => it.key == k)
  · simp only [h, if_true]
    induction s with
    | nil => simp at h
    | cons a t ih =>
      by_cases ha : a.key = k
      · simp [List.find?, ha]
      · have ht : t.any (fun it => it.key == k) := by
          simpa [List.any_cons, ha] using h
        have hhead : (if (a.key == k) = true then
            (⟨k, code, e⟩ : OtpItem) else a) = a := by simp [ha]
        simp only [List.map_cons, hhead]
        rw [List.find?_cons_of_neg _ (by simpa using ha)]
        exact ih ht
  · rw [if_neg h, List.find?_append]
    have hs : s.find? (fun it => it.key == k) = none := by
      rw [List.find?_eq_none]
      intro it hmem hkey
      exact absurd (List.any_eq_true.mpr ⟨it, hmem, hkey⟩) h
    simp [hs, List.find?]

/-- Claim C6: once `VerifyCode` accepts a code for a user it deletes the
stored entry, so any immediately following `VerifyCode` call for the same
user — with the same code or any other, at any time — fails with
`code not found`; an accepted OTP is never accepted again from the
resulting store. -/
theorem verifyCode_single_use (s : OtpStore) (u : Nat) (code : String)
    (now : Nat) (s1 : OtpStore)
    (h : VerifyCode s u code now = (.ok (), s1)) :
    ∀ code2 now2,
      VerifyCode s1 u code2 now2 = (.error "code not found", s1) := by
  intro code2 now2
  have hs1 : s1 = otpDelete s u := by
    unfold VerifyCode otpGet at h
    cases hf : s.find? (fun it => it.key == u) with
    | none => rw [hf] at h; simp at h
    | some item =>
      rw [hf] at h
      by_cases hexp : now > item.expiresAt
      · simp [hexp] at h
      · by_cases hc : item.code = code
        · simp [hexp, hc] at h
          exact h.symm
        · simp [hexp, hc] at h
  have hfind : s1.find? (fun it => it.key == u) = none := by
    rw [hs1]; exact otpDelete_find s u
  unfold VerifyCode otpGet
  rw [hfind]

/-- Witness for C6 at a concrete store. -/
theorem verifyCode_single_use_witness :
    VerifyCode [⟨7, "123456", 300⟩] 7 "123456" 10 = (.ok (), []) ∧
      VerifyCode [] 7 "123456" 11 = (.error "code not found", []) :=
  ⟨by decide, verifyCode_single_use [⟨7, "123456", 300⟩] 7 "123456" 10 []
    (by decide) "123456" 11⟩

/-- Claim C7: when the password verifies but the email of the user is not
verified, `Login` stores a fresh verification OTP for the user (the
`send_code` trigger), returns the `email not verified` error — so no access
token is issued — and leaves the refresh store untouched, so no refresh
record is created. -/
theorem login_unverified_email (cfg : JwtConfig)
    (hashToken : RefreshClaims → String) (cmp : String → String → Bool)
    (users : List User) (store : RefreshStore) (otp : OtpStore)
    (email password otpCode : String) (newRefreshID now : Nat)
    (clientIP userAgent : String) (user : User) (pwCred : Credential)
    (hu : getUserByEmail users email = some user)
    (hc : user.credentials.find? (fun c => c.ctype == "password") =
      some pwCred)
    (hcmp : cmp pwCred.value password = true)
    (hv : user.isEmailVerified = false) :
    Login cfg hashToken cmp users store otp email password otpCode
        newRefreshID now clientIP userAgent =
      (.error "email not verified", store,
        otpSave otp user.id otpCode (now + 300)) ∧
    (otpSave otp user.id otpCode (now + 300)).find?
        (fun it => it.key == user.id) =
      some ⟨user.id, otpCode, now + 300⟩ := by
  constructor
  · unfold Login
    simp only [hu, hc]
    simp [hcmp, hv]
  · exact otpSave_find otp user.id otpCode (now + 300)

/-- Witness for C7 at a concrete state: the unverified user logs in with a
correct password, gets `email not verified`, the refresh store stays empty
and the OTP store now holds the freshly generated code. -/
theorem login_unverified_email_witness :
    Login cfg0 hashToken0 cmp0 [userUnverified] [] [] "ada@x.test" "pw"
        "654321" 10 0 "ip" "ua" =
      (.error "email not verified", [],
        otpSave [] userUnverified.id "654321" (0 + 300)) ∧
    (otpSave [] userUnverified.id "654321" (0 + 300)).find?
        (fun it => it.key == userUnverified.id) =
      some ⟨userUnverified.id, "654321", 0 + 300⟩ :=
  login_unverified_email cfg0 hashToken0 cmp0 [userUnverified] [] []
    "ada@x.test" "pw" "654321" 10 0 "ip" "ua" userUnverified
    ⟨"password", "stored"⟩ (by decide) (by decide) (by decide) (by decide)

/-- A found record carries the id it was looked up by. -/
theorem getByID_id (s : RefreshStore) (i : Nat) (r : RefreshToken)
    (h : getByID s i = some r) : r.id = i := by
  unfold getByID at h
  simpa using List.find?_some h

/-- A found record is a member of the store. -/
theorem getByID_mem (s : RefreshStore) (i : Nat) (r : RefreshToken)
    (h : getByID s i = some r) : r ∈ s :=
  List.mem_of_find?_eq_some h

/-- Claim C1: on a grace-period retry (parent not revoked, owner matches,
`replaced_at` within the grace period, child present) `Refresh` returns the
store unchanged — no `RefreshStore` writes — together with a refresh JWT
whose jti is exactly the `replaced_by` of the parent and whose subject is
the owner of the child, and a freshly minted access token for the user of
the record. -/
theorem refresh_grace_no_writes (cfg : JwtConfig)
    (hashToken : RefreshClaims → String) (users : List User)
    (store : RefreshStore) (uid rid newRefreshID : Nat) (updateOk : Bool)
    (t1 t2 : Nat) (clientIP userAgent : String)
    (existing childToken : RefreshToken) (user : User) (ta cid : Nat)
    (hfind : getByID store rid = some existing)
    (hown : existing.userId = uid)
    (hrev : existing.revokedAt = none)
    (hrep : existing.replacedAt = some ta)
    (hgrace : t1 - ta ≤ cfg.gracePeriod)
    (hrb : existing.replacedByTokenId = some cid)
    (hchild : getByID store cid = some childToken)
    (huser : getUserByID users existing.userId = some user) :
    Refresh cfg hashToken users store (some (uid, rid)) newRefreshID
        updateOk t1 t2 clientIP userAgent =
      (.ok { accessToken := GenerateAccessTokenOnly cfg t1 user.id
               (roleCodes user)
             refreshToken := SignRefreshToken cfg t1 childToken.id
               childToken.userId
             expiresIn := cfg.accessTTL }, store) ∧
    (SignRefreshToken cfg t1 childToken.id childToken.userId).jti = cid ∧
    (SignRefreshToken cfg t1 childToken.id childToken.userId).subject =
      childToken.userId := by
  refine ⟨?_, ?_, rfl⟩
  · unfold Refresh
    simp only [hfind, hrep, hrb, hchild, huser]
    simp [hown, hrev, Nat.not_lt.mpr hgrace, Nat.lt_iff_add_one_le]
  · simpa [SignRefreshToken] using getByID_id store cid childToken hchild

/-- Witness for C1: retry at time 5 of a parent rotated at time 0 under the
default 10-second grace period. -/
theorem refresh_grace_no_writes_witness :
    Refresh cfg0 hashToken0 [user0] storeReplaced (some (1, 10)) 99 true
        5 5 "ip" "ua" =
      (.ok { accessToken := GenerateAccessTokenOnly cfg0 5 user0.id
               (roleCodes user0)
             refreshToken := SignRefreshToken cfg0 5 11 1
             expiresIn := cfg0.accessTTL }, storeReplaced) ∧
    (SignRefreshToken cfg0 5 11 1).jti = 11 ∧
    (SignRefreshToken cfg0 5 11 1).subject = 1 :=
  refresh_grace_no_writes cfg0 hashToken0 [user0] storeReplaced 1 10 99
    true 5 5 "ip" "ua" ⟨10, 1, "h", "ip", "ua", 604800, some 0, some 11, none, 0⟩
    ⟨11, 1, "h2", "ip", "ua", 604800, none, none, none, 0⟩ user0 0 11
    (by decide) (by decide) (by decide) (by decide) (by decide) (by decide)
    (by decide) (by decide)

/-- Deleting the freshly appended record restores the original store. -/
theorem deleteRT_append_fresh (s : RefreshStore) (rt : RefreshToken)
    (i : Nat) (hi : rt.id = i)
    (h : s.any (fun r => r.id == i) = false) :
    deleteRT (s ++ [rt]) i = s := by
  unfold deleteRT
  rw [List.filter_append]
  have h1 : s.filter (fun r => r.id != i) = s := by
    rw [List.filter_eq_self]
    intro r hmem
    have hne : r.id ≠ i := by
      intro heq
      have hany : s.any (fun r => r.id == i) = true :=
        List.any_eq_true.mpr ⟨r, hmem, beq_iff_eq.mpr heq⟩
      rw [h] at hany
      exact Bool.false_ne_true hany
    simpa using hne
  have h2 : List.filter (fun r => r.id != i) [rt] = [] := by
    simp [List.filter, hi]
  rw [h1, h2, List.append_nil]

/-- Claim C2: on a fresh parent (`replaced_at` null) the rotation inserts
the child and then updates the parent; when that update fails, `Refresh`
returns `failed to rotate token` and the final store equals the initial
one — the just-inserted child has been deleted, so no orphan child record
remains. -/
theorem refresh_rotation_compensation (cfg : JwtConfig)
    (hashToken : RefreshClaims → String) (users : List User)
    (store : RefreshStore) (uid rid newRefreshID : Nat) (t1 t2 : Nat)
    (clientIP userAgent : String) (existing : RefreshToken) (user : User)
    (hfind : getByID store rid = some existing)
    (hown : existing.userId = uid)
    (hrev : existing.revokedAt = none)
    (hrep : existing.replacedAt = none)
    (huser : getUserByID users existing.userId = some user)
    (hfresh : store.any (fun r => r.id == newRefreshID) = false) :
    Refresh cfg hashToken users store (some (uid, rid)) newRefreshID
        false t1 t2 clientIP userAgent =
      (.error "failed to rotate token", store) := by
  have hfresh2 : ∀ x ∈ store, ¬ x.id = newRefreshID := by
    intro x hx heq
    exact Bool.false_ne_true
      (hfresh ▸ List.any_eq_true.mpr ⟨x, hx, beq_iff_eq.mpr heq⟩)
  unfold Refresh
  simp only [hfind, hrep, huser]
  simp only [createRT, updateRT]
  simp [hown, hrev, GenerateTokens]
  have hno : ¬ ∃ x ∈ store, x.id = newRefreshID := by
    rintro ⟨x, hx, heq⟩
    exact hfresh2 x hx heq
  rw [if_neg hno]
  simp only [Prod.mk.injEq]
  refine ⟨trivial, ?_⟩
  exact deleteRT_append_fresh store _ newRefreshID rfl hfresh

/-- Witness for C2: a failed parent update after inserting child 42 leaves
the one-record store exactly as it was. -/
theorem refresh_rotation_compensation_witness :
    Refresh cfg0 hashToken0 [user0]
        [⟨10, 1, "h", "ip", "ua", 604800, none, none, none, 0⟩]
        (some (1, 10)) 42 false 5 7 "ip" "ua" =
      (.error "failed to rotate token",
        [⟨10, 1, "h", "ip", "ua", 604800, none, none, none, 0⟩]) :=
  refresh_rotation_compensation cfg0 hashToken0 [user0]
    [⟨10, 1, "h", "ip", "ua", 604800, none, none, none, 0⟩] 1 10 42 5 7
    "ip" "ua" ⟨10, 1, "h", "ip", "ua", 604800, none, none, none, 0⟩ user0
    (by decide) (by decide) (by decide) (by decide) (by decide) (by decide)

/-- Claim C3: the boundary is claimed to answer 401 on `InvalidToken`,
`Revoked` and `ReuseDetected` refresh failures and to clear the
`refresh_token` cookie on every failure.  The cookie part holds, but the
controller matches the service error strings against
`invalid or unknown refresh token` and `refresh token expired or revoked`
— the latter is never produced by the service — so an unparsable token
(`invalid refresh token`), a revoked record (`token was revoked`) and a
replay outside the grace period (`reuse detected`) all fall through to 500.
This theorem evaluates the handler at those three failing inputs. -/
theorem controllerRefresh_failure_status :
    (ControllerRefresh cfg0 hashToken0 [user0] storeRevoked false none 99
        true 6 6 "ip" "ua").1 = { status := 500, cookie := .clear } ∧
    (ControllerRefresh cfg0 hashToken0 [user0] storeRevoked false
        (some (1, 10)) 99 true 6 6 "ip" "ua").1 =
      { status := 500, cookie := .clear } ∧
    (ControllerRefresh cfg0 hashToken0 [user0] storeReplaced false
        (some (1, 10)) 99 true 100 100 "ip" "ua").1 =
      { status := 500, cookie := .clear } ∧
    (Refresh cfg0 hashToken0 [user0] storeRevoked (some (1, 10)) 99 true
        6 6 "ip" "ua").1 = .error "token was revoked" ∧
    (Refresh cfg0 hashToken0 [user0] storeReplaced (some (1, 10)) 99 true
        100 100 "ip" "ua").1 =
      .error "refresh token reuse detected: account locked for security" ∧
    (500 : Nat) ≠ 401 := by
  decide

/-- The refresh store after `Login` is either unchanged or grown by one
fresh, not-yet-replaced record. -/
theorem Login_store_cases (cfg : JwtConfig)
    (hashToken : RefreshClaims → String) (cmp : String → String → Bool)
    (users : List User) (store : RefreshStore) (otp : OtpStore)
    (email password otpCode : String) (newRefreshID now : Nat)
    (clientIP userAgent : String) :
    (Login cfg hashToken cmp users store otp email password otpCode
      newRefreshID now clientIP userAgent).2.1 = store ∨
    ∃ rt : RefreshToken, rt.replacedAt = none ∧
      store.any (fun r => r.id == rt.id) = false ∧
      (Login cfg hashToken cmp users store otp email password otpCode
        newRefreshID now clientIP userAgent).2.1 = store ++ [rt] := by
  unfold Login
  split
  · left; rfl
  next user hu =>
    split
    · left; rfl
    next pwCred hc =>
      split
      · left; rfl
      split
      · left; rfl
      dsimp only
      split
      next e heq =>
        left; rfl
      next store1 heq =>
        unfold createRT at heq
        split at heq
        · exact absurd heq (by simp)
        next hany =>
          right
          refine ⟨⟨newRefreshID, user.id,
            hashToken (GenerateTokens cfg now newRefreshID user.id
              (roleCodes user)).refreshToken,
            clientIP, userAgent, now + cfg.refreshTTL, none, none, none,
            now⟩, rfl, Bool.of_not_eq_true hany, ?_⟩
          simpa [GenerateTokens] using heq.symm

/-- The refresh store after `Refresh` is either unchanged or rewritten by
one successful rotation: a fresh child record appended and the parent (a
member of the store) stamped with `replaced_at = t2` and
`replaced_by = child id`. -/
theorem Refresh_store_cases (cfg : JwtConfig)
    (hashToken : RefreshClaims → String) (users : List User)
    (store : RefreshStore) (parseResult : Option (Nat × Nat))
    (newRefreshID : Nat) (updateOk : Bool) (t1 t2 : Nat)
    (clientIP userAgent : String) :
    (Refresh cfg hashToken users store parseResult newRefreshID updateOk
      t1 t2 clientIP userAgent).2 = store ∨
    ∃ existing rt : RefreshToken, existing ∈ store ∧
      store.any (fun r => r.id == rt.id) = false ∧
      rt.userId = existing.userId ∧ rt.replacedAt = none ∧
      rt.createdAt = t1 ∧
      (Refresh cfg hashToken users store parseResult newRefreshID updateOk
        t1 t2 clientIP userAgent).2 =
      (store ++ [rt]).map fun r =>
        if r.id == existing.id then
          { existing with
            replacedAt := some t2
            replacedByTokenId := some rt.id }
        else r := by
  unfold Refresh
  split
  · left; rfl
  next p =>
    split
    · left; rfl
    next existing hfind =>
      split
      · left; rfl
      split
      · left; rfl
      split
      · -- replaced parent: every branch of the grace logic leaves the store
        split
        · left; rfl
        split
        · left; rfl
        split
        · left; rfl
        split
        · left; rfl
        · left; rfl
      · -- fresh parent: normal rotation
        split
        · left; rfl
        next user huser =>
          dsimp only
          split
          next e heq =>
            left; rfl
          next store1 heq =>
            unfold createRT at heq
            split at heq
            · exact absurd heq (by simp)
            next hany =>
              have hfresh : store.any
                  (fun r => r.id == newRefreshID) = false :=
                Bool.of_not_eq_true hany
              have hstore1 : store1 = store ++
                  [{ id := newRefreshID, userId := existing.userId,
                     tokenHash := hashToken (GenerateTokens cfg t1
                       newRefreshID existing.userId
                       (roleCodes user)).refreshToken,
                     clientIP := clientIP, userAgent := userAgent,
                     expiresAt := t1 + cfg.refreshTTL, replacedAt := none,
                     replacedByTokenId := none, revokedAt := none,
                     createdAt := t1 }] := by
                simpa [GenerateTokens] using heq.symm
              unfold updateRT
              split
              next e heqU =>
                -- update refused: the inserted child is deleted again
                left
                rw [hstore1]
                exact deleteRT_append_fresh store _ newRefreshID rfl hfresh
              next store2 heqU =>
                -- update succeeded
                right
                split at heqU
                · injection heqU with h2
                  refine ⟨existing,
                    ⟨newRefreshID, existing.userId,
                     hashToken (GenerateTokens cfg t1 newRefreshID
                       existing.userId (roleCodes user)).refreshToken,
                     clientIP, userAgent, t1 + cfg.refreshTTL, none, none,
                     none, t1⟩,
                    getByID_mem _ _ _ hfind, hfresh, rfl, rfl, rfl, ?_⟩
                  show store2 = _
                  rw [← h2, hstore1]
                  rfl
                · exact absurd heqU (by simp)

/-- A record that is not replaced satisfies the lineage condition. -/
theorem recOk_none {s : RefreshStore} {r : RefreshToken}
    (h : r.replacedAt = none) : recOk s r := by
  unfold recOk
  rw [h]
  exact trivial

/-- Unfolding of the lineage condition on a replaced record. -/
theorem recOk_some {s : RefreshStore} {r : RefreshToken} {t : Nat}
    (h : r.replacedAt = some t) :
    recOk s r ↔ ∃ c ∈ s, r.replacedByTokenId = some c.id ∧
      c.userId = r.userId ∧ c.createdAt ≤ t := by
  unfold recOk
  rw [h]
  exact Iff.rfl

/-- Appending a fresh, not-yet-replaced record preserves well-formedness. -/
theorem storeWf_append_fresh (s : RefreshStore) (rt : RefreshToken)
    (hwf : storeWf s)
    (hfresh : s.any (fun r => r.id == rt.id) = false)
    (hrep : rt.replacedAt = none) :
    storeWf (s ++ [rt]) := by
  obtain ⟨hnd, hinv⟩ := hwf
  constructor
  · rw [List.map_append, List.nodup_append]
    refine ⟨hnd, List.nodup_singleton _, ?_⟩
    intro a ha hb
    simp only [List.map_cons, List.map_nil, List.mem_singleton] at hb
    subst hb
    simp only [List.mem_map] at ha
    obtain ⟨r, hr, hid⟩ := ha
    exact Bool.false_ne_true
      (hfresh ▸ List.any_eq_true.mpr ⟨r, hr, beq_iff_eq.mpr hid⟩)
  · intro r hr
    rcases List.mem_append.mp hr with h | h
    · cases hra : r.replacedAt with
      | none => exact recOk_none hra
      | some t =>
        obtain ⟨c, hc, hcb, hcu, hct⟩ := (recOk_some hra).mp (hinv r h)
        exact (recOk_some hra).mpr
          ⟨c, List.mem_append_left _ hc, hcb, hcu, hct⟩
    · simp only [List.mem_singleton] at h
      subst h
      exact recOk_none hrep

/-- A successful rotation — fresh child appended, parent stamped with
`replaced_at = t2` pointing at the child — preserves well-formedness,
provided the child was created at or before `t2`. -/
theorem storeWf_rotate (s : RefreshStore) (existing rt : RefreshToken)
    (t2 : Nat) (hwf : storeWf s) (hmem : existing ∈ s)
    (hfresh : s.any (fun r => r.id == rt.id) = false)
    (huid : rt.userId = existing.userId)
    (hrep : rt.replacedAt = none)
    (hct : rt.createdAt ≤ t2) :
    storeWf ((s ++ [rt]).map fun r =>
      if r.id == existing.id then
        { existing with
          replacedAt := some t2
          replacedByTokenId := some rt.id }
      else r) := by
  have hwf1 : storeWf (s ++ [rt]) := storeWf_append_fresh s rt hwf hfresh hrep
  have hmem1 : existing ∈ s ++ [rt] := List.mem_append_left _ hmem
  have hrt1 : rt ∈ s ++ [rt] := List.mem_append_right _ (by simp)
  have hne : rt.id ≠ existing.id := by
    intro heq
    exact Bool.false_ne_true
      (hfresh ▸ List.any_eq_true.mpr ⟨existing, hmem, beq_iff_eq.mpr heq.symm⟩)
  have hinj : ∀ a ∈ s ++ [rt], ∀ b ∈ s ++ [rt], a.id = b.id → a = b :=
    List.inj_on_of_nodup_map hwf1.1
  set upd : RefreshToken :=
    { existing with
      replacedAt := some t2
      replacedByTokenId := some rt.id } with hupd
  set f : RefreshToken → RefreshToken :=
    (fun r => if r.id == existing.id then upd else r) with hf
  have hid : ∀ r : RefreshToken, (f r).id = r.id := by
    intro r
    by_cases hc : r.id = existing.id
    · simp [hf, hc, hupd]
    · simp [hf, hc]
  have hfrt : f rt = rt := by simp [hf, hne]
  have hfex : f existing = upd := by simp [hf]
  constructor
  · have : ((s ++ [rt]).map f).map (fun r => r.id) =
        (s ++ [rt]).map (fun r => r.id) := by
      rw [List.map_map]
      exact List.map_congr_left fun r _ => hid r
    rw [this]
    exact hwf1.1
  · intro r1 hr1
    obtain ⟨r, hr, hfr⟩ := List.mem_map.mp hr1
    by_cases hc : r.id = existing.id
    · -- r1 is the stamped parent
      have hr1upd : r1 = upd := by rw [← hfr, hf]; simp [hc]
      subst hr1upd
      refine (recOk_some (by rw [hupd])).mpr ⟨rt, ?_, ?_, ?_, hct⟩
      · exact List.mem_map.mpr ⟨rt, hrt1, hfrt⟩
      · rw [hupd]
      · rw [hupd]
        exact huid
    · -- r1 is an untouched record
      have hr1r : r1 = r := by rw [← hfr, hf]; simp [hc]
      subst hr1r
      cases hra : r1.replacedAt with
      | none => exact recOk_none hra
      | some t =>
        obtain ⟨c, hcmem, hcb, hcu, hcct⟩ :=
          (recOk_some hra).mp (hwf1.2 r1 hr)
        by_cases hcid : c.id = existing.id
        · -- the witness is the stamped parent itself
          have hcex : c = existing := hinj c hcmem existing hmem1 hcid
          refine (recOk_some hra).mpr
            ⟨upd, List.mem_map.mpr ⟨existing, hmem1, hfex⟩, ?_, ?_, ?_⟩
          · rw [hupd]
            simpa [hcex] using hcb
          · rw [hupd]
            simpa [hcex] using hcu
          · rw [hupd]
            simpa [hcex] using hcct
        · refine (recOk_some hra).mpr
            ⟨c, List.mem_map.mpr ⟨c, hcmem, by simp [hf, hcid]⟩,
              hcb, hcu, hcct⟩

/-- One login or refresh request preserves well-formedness of the refresh
store, provided its two clock readings are ordered. -/
theorem applyOp_preserves (cfg : JwtConfig)
    (hashToken : RefreshClaims → String) (cmp : String → String → Bool)
    (users : List User) (st : RefreshStore × OtpStore) (op : AuthOp)
    (hwf : storeWf st.1) (hop : op.timeOk) :
    storeWf (applyOp cfg hashToken cmp users st op).1 := by
  cases op with
  | login email password otpCode newRefreshID now clientIP userAgent =>
    unfold applyOp
    dsimp only
    rcases Login_store_cases cfg hashToken cmp users st.1 st.2 email
        password otpCode newRefreshID now clientIP userAgent with
      h | ⟨rt, hrep, hfresh, h⟩
    · rw [h]; exact hwf
    · rw [h]
      exact storeWf_append_fresh st.1 rt hwf hfresh hrep
  | refresh parseResult newRefreshID updateOk t1 t2 clientIP userAgent =>
    unfold applyOp
    dsimp only
    rcases Refresh_store_cases cfg hashToken users st.1 parseResult
        newRefreshID updateOk t1 t2 clientIP userAgent with
      h | ⟨existing, rt, hmem, hfresh, huid, hrep, hct, h⟩
    · rw [h]; exact hwf
    · rw [h]
      refine storeWf_rotate st.1 existing rt t2 hwf hmem hfresh huid hrep ?_
      rw [hct]
      exact hop

/-- Folding any time-ordered operation sequence preserves
well-formedness. -/
theorem foldl_preserves_wf (cfg : JwtConfig)
    (hashToken : RefreshClaims → String) (cmp : String → String → Bool)
    (users : List User) :
    ∀ (ops : List AuthOp) (st : RefreshStore × OtpStore),
      (∀ op ∈ ops, op.timeOk) → storeWf st.1 →
      storeWf (ops.foldl (applyOp cfg hashToken cmp users) st).1 := by
  intro ops
  induction ops with
  | nil => intro st _ h; exact h
  | cons op rest ih =>
    intro st hops h
    exact ih _ (fun o ho => hops o (List.mem_cons_of_mem _ ho))
      (applyOp_preserves cfg hashToken cmp users st op h
        (hops op (List.mem_cons_self _ _)))

/-- Claim C5, amended: in every store reachable by login and refresh
operations whose per-request clock readings are ordered, a replaced record
points through `replaced_by` to an existing record of the same owner — but
that child has its `created_at` at or BEFORE the `replaced_at` of the
parent (the
child row is inserted before the parent is stamped), not at or after as the
specification claims. -/
theorem refresh_chain_invariant (cfg : JwtConfig)
    (hashToken : RefreshClaims → String) (cmp : String → String → Bool)
    (users : List User) (ops : List AuthOp)
    (hops : ∀ op ∈ ops, op.timeOk) :
    chainInv (runOps cfg hashToken cmp users ops).1 :=
  (foldl_preserves_wf cfg hashToken cmp users ops ([], []) hops
    ⟨List.nodup_nil, fun r hr => absurd hr (List.not_mem_nil r)⟩).2

/-- Witness for the amended C5 at the concrete two-request run. -/
theorem refresh_chain_invariant_witness :
    (∀ op ∈ ops0, op.timeOk) ∧
      chainInv (runOps cfg0 hashToken0 cmp0 [user0] ops0).1 :=
  ⟨by decide,
    refresh_chain_invariant cfg0 hashToken0 cmp0 [user0] ops0 (by decide)⟩

/-- Claim C5, as stated, is false on the code: after a login at time 0 and
a rotation whose child row is inserted at clock reading 5 and whose parent
is stamped `replaced_at = 7`, the child of the parent exists and has the
same
owner but `created_at = 5 < 7 = replaced_at`, so the claimed
`created_at ≥ replaced_at` fails in this reachable store. -/
theorem chainInvClaim_counterexample :
    ¬ chainInvClaim (runOps cfg0 hashToken0 cmp0 [user0] ops0).1 := by
  decide

/-- Claim C10, amended: `ParseRefreshToken` errors when the subject or jti
claim is missing or fails to parse as a UUID, and on success returns
exactly the parsed subject and jti claims — which, however, may be
`uuid.Nil` when a claim is the textual zero UUID. -/
theorem parseRefreshToken_spec (claims : RawClaims) :
    (claims.subject = "" →
      ParseRefreshToken (some claims) =
        .error "missing subject (user_id) in refresh token") ∧
    (claims.subject ≠ "" → claims.jti = "" →
      ParseRefreshToken (some claims) =
        .error "missing jti in refresh token") ∧
    (claims.subject ≠ "" → claims.jti ≠ "" →
      uuidParse claims.subject.data = none →
      ParseRefreshToken (some claims) =
        .error "invalid user_id format in token") ∧
    (∀ u, claims.subject ≠ "" → claims.jti ≠ "" →
      uuidParse claims.subject.data = some u →
      uuidParse claims.jti.data = none →
      ParseRefreshToken (some claims) =
        .error "invalid jti format in token") ∧
    (∀ u r, claims.subject ≠ "" → claims.jti ≠ "" →
      uuidParse claims.subject.data = some u →
      uuidParse claims.jti.data = some r →
      ParseRefreshToken (some claims) = .ok (u, r)) := by
  refine ⟨?_, ?_, ?_, ?_, ?_⟩
  · intro h
    unfold ParseRefreshToken
    dsimp only
    rw [if_pos h]
  · intro h1 h2
    unfold ParseRefreshToken
    dsimp only
    rw [if_neg h1, if_pos h2]
  · intro h1 h2 h3
    unfold ParseRefreshToken
    dsimp only
    rw [if_neg h1, if_neg h2, h3]
  · intro u h1 h2 h3 h4
    unfold ParseRefreshToken
    dsimp only
    rw [if_neg h1, if_neg h2, h3, h4]
  · intro u r h1 h2 h3 h4
    unfold ParseRefreshToken
    dsimp only
    rw [if_neg h1, if_neg h2, h3, h4]

/-- Witness for C10 at concrete claims whose subject and jti are valid
non-zero UUIDs. -/
theorem parseRefreshToken_spec_witness :
    ParseRefreshToken (some ⟨"11111111-2222-3333-4444-555555555555",
        "99999999-8888-7777-6666-555555555555"⟩) =
      .ok ([17, 17, 17, 17, 34, 34, 51, 51, 68, 68, 85, 85, 85, 85, 85, 85],
        [153, 153, 153, 153, 136, 136, 119, 119, 102, 102, 85, 85, 85, 85,
          85, 85]) :=
  (parseRefreshToken_spec
    ⟨"11111111-2222-3333-4444-555555555555",
      "99999999-8888-7777-6666-555555555555"⟩).2.2.2.2
    [17, 17, 17, 17, 34, 34, 51, 51, 68, 68, 85, 85, 85, 85, 85, 85]
    [153, 153, 153, 153, 136, 136, 119, 119, 102, 102, 85, 85, 85, 85, 85,
      85]
    (by decide) (by decide) (by decide) (by decide)

/-- Claim C10, as stated, is false in its non-nil part: a refresh token
whose subject claim is the textual zero UUID parses successfully, and the
returned user id is `uuid.Nil`. -/
theorem parseRefreshToken_nil_counterexample :
    ParseRefreshToken (some ⟨"00000000-0000-0000-0000-000000000000",
        "00000000-0000-0000-0000-000000000001"⟩) =
      .ok (uuidNil,
        [0, 0, 0, 0, 0, 0, 0, 0, 0, 0, 0, 0, 0, 0, 0, 1]) := by
  decide

end MeinIdaas

namespace Argon2

/-- The decimal scan distributes over append. -/
theorem parseDecAux_append (xs ys : List Nat) :
    ∀ a, parseDecAux a (xs ++ ys) =
      match parseDecAux a xs with
      | some v => parseDecAux v ys
      | none => none := by
  induction xs with
  | nil => intro a; rfl
  | cons c cs ih =>
    intro a
    by_cases h : 48 ≤ c ∧ c ≤ 57
    · simp only [List.cons_append, parseDecAux, if_pos h]
      exact ih _
    · simp only [List.cons_append, parseDecAux, if_neg h]

/-- Printed decimal digits are ASCII digits. -/
theorem natToDigitsB_digits (n : Nat) :
    ∀ c ∈ natToDigitsB n, 48 ≤ c ∧ c ≤ 57 := by
  induction n using Nat.strong_induction_on with
  | _ n ih =>
    rw [natToDigitsB]
    by_cases h : n < 10
    · rw [dif_pos h]
      intro c hc
      simp only [List.mem_singleton] at hc
      subst hc
      omega
    · rw [dif_neg h]
      intro c hc
      rcases List.mem_append.mp hc with h1 | h1
      · exact ih (n / 10) (Nat.div_lt_self (by omega) (by omega)) c h1
      · simp only [List.mem_singleton] at h1
        subst h1
        omega

/-- The decimal print is never empty. -/
theorem natToDigitsB_ne_nil (n : Nat) : natToDigitsB n ≠ [] := by
  rw [natToDigitsB]
  by_cases h : n < 10
  · rw [dif_pos h]; simp
  · rw [dif_neg h]; simp

/-- Scanning the printed digits of `n` from accumulator `a` yields
`a` shifted past them plus `n`. -/
theorem parseDecAux_natToDigitsB (n : Nat) :
    ∀ a, parseDecAux a (natToDigitsB n) =
      some (a * 10 ^ (natToDigitsB n).length + n) := by
  induction n using Nat.strong_induction_on with
  | _ n ih =>
    intro a
    rw [natToDigitsB]
    by_cases h : n < 10
    · rw [dif_pos h]
      simp only [parseDecAux]
      rw [if_pos (by omega)]
      simp only [parseDecAux, List.length_singleton, pow_one]
      congr 1
      omega
    · rw [dif_neg h]
      rw [parseDecAux_append]
      rw [ih (n / 10) (Nat.div_lt_self (by omega) (by omega)) a]
      simp only [parseDecAux]
      rw [if_pos (by omega)]
      congr 1
      rw [List.length_append, List.length_singleton, pow_succ]
      set L := (natToDigitsB (n / 10)).length
      set k := (10 : Nat) ^ L with hk
      have hmul : a * (k * 10) = a * k * 10 := by ring
      omega

/-- Go `strconv.ParseUint` inverts the decimal print within the bit size. -/
theorem parseUintB_natToDigitsB (n bitSize : Nat) (h : n < 2 ^ bitSize) :
    parseUintB (natToDigitsB n) bitSize = some n := by
  have hp := parseDecAux_natToDigitsB n 0
  simp only [Nat.zero_mul, Nat.zero_add] at hp
  unfold parseUintB
  cases hd : natToDigitsB n with
  | nil => exact absurd hd (natToDigitsB_ne_nil n)
  | cons c cs =>
    rw [hd] at hp
    dsimp only
    rw [hp]
    dsimp only
    rw [if_pos h]

/-- Go `strings.Split` on a separator-free string is the singleton. -/
theorem splitOnB_no_sep (sep : Nat) (xs : List Nat)
    (h : ∀ c ∈ xs, c ≠ sep) : splitOnB sep xs = [xs] := by
  induction xs with
  | nil => rfl
  | cons b rest ih =>
    unfold splitOnB
    rw [if_neg (h b (by simp)), ih (fun c hc => h c (by simp [hc]))]

/-- Go `strings.Split` peels one separator-free chunk before a separator. -/
theorem splitOnB_append (sep : Nat) (xs ys : List Nat)
    (h : ∀ c ∈ xs, c ≠ sep) :
    splitOnB sep (xs ++ sep :: ys) = xs :: splitOnB sep ys := by
  induction xs with
  | nil =>
    simp only [List.nil_append]
    rw [splitOnB.eq_2, if_pos rfl]
  | cons b rest ih =>
    simp only [List.cons_append]
    rw [splitOnB.eq_2, if_neg (h b (by simp)),
      ih (fun c hc => h c (by simp [hc]))]

/-- Hex decoding inverts the hex digit of a nibble. -/
theorem hexValB_hexDigB (d : Nat) (h : d < 16) :
    hexValB (hexDigB d) = some d := by
  unfold hexValB hexDigB
  by_cases h10 : d < 10
  · rw [if_pos h10, if_pos (by omega)]
    congr 1
    omega
  · rw [if_neg h10, if_neg (by omega), if_pos (by omega)]
    congr 1
    omega

/-- A hex digit of a nibble is an ASCII digit or a lowercase `a`-`f`. -/
theorem hexDigB_range (d : Nat) (h : d < 16) :
    (48 ≤ hexDigB d ∧ hexDigB d ≤ 57) ∨
      (97 ≤ hexDigB d ∧ hexDigB d ≤ 102) := by
  unfold hexDigB
  by_cases h10 : d < 10
  · rw [if_pos h10]; omega
  · rw [if_neg h10]; omega

/-- Characters of a hex encoding of bytes. -/
theorem hexEncodeB_mem (bs : List Nat) (h : ∀ b ∈ bs, b < 256) :
    ∀ c ∈ hexEncodeB bs,
      (48 ≤ c ∧ c ≤ 57) ∨ (97 ≤ c ∧ c ≤ 102) := by
  induction bs with
  | nil => intro c hc; simp [hexEncodeB] at hc
  | cons b rest ih =>
    intro c hc
    have hb : b < 256 := h b (by simp)
    unfold hexEncodeB at hc
    rcases List.mem_cons.mp hc with hc1 | hc2
    · subst hc1
      exact hexDigB_range (b / 16) (by omega)
    rcases List.mem_cons.mp hc2 with hc1 | hc3
    · subst hc1
      exact hexDigB_range (b % 16) (by omega)
    · exact ih (fun x hx => h x (by simp [hx])) c hc3

/-- Go `hex.DecodeString` inverts `hex.EncodeToString` on bytes. -/
theorem hexDecodeB_hexEncodeB (bs : List Nat) (h : ∀ b ∈ bs, b < 256) :
    hexDecodeB (hexEncodeB bs) = some bs := by
  induction bs with
  | nil => rfl
  | cons b rest ih =>
    have hb : b < 256 := h b (by simp)
    unfold hexEncodeB hexDecodeB
    rw [hexValB_hexDigB (b / 16) (by omega),
        hexValB_hexDigB (b % 16) (by omega),
        ih (fun x hx => h x (by simp [hx]))]
    dsimp only
    have hbb : 16 * (b / 16) + b % 16 = b := by omega
    rw [hbb]

/-- Go `strings.TrimSpace` is the identity on whitespace-free strings. -/
theorem trimSpaceB_eq_self (s : List Nat)
    (h : ∀ c ∈ s, isSpaceB c = false) : trimSpaceB s = s := by
  have key : ∀ l : List Nat, (∀ c ∈ l, isSpaceB c = false) →
      l.dropWhile isSpaceB = l := by
    intro l hl
    cases l with
    | nil => rfl
    | cons a t =>
      rw [List.dropWhile_cons_of_neg]
      simp [hl a (by simp)]
  unfold trimSpaceB
  rw [key s h, key s.reverse (fun c hc => h c (List.mem_reverse.mp hc)),
    List.reverse_reverse]

/-- The constant-time comparison accepts equal byte strings. -/
theorem constantTimeCompare_self (a : List Nat) :
    constantTimeCompare a a = true := by
  unfold constantTimeCompare
  rw [if_neg (by simp)]
  have hz : List.zipWith (fun x y => x ^^^ y) a a =
      List.replicate a.length 0 := by
    induction a with
    | nil => rfl
    | cons x t ih => simp [List.zipWith, Nat.xor_self, ih, List.replicate]
  rw [hz]
  have hf : ∀ n : Nat,
      (List.replicate n 0).foldl (fun r x => r ||| x) 0 = 0 := by
    intro n
    induction n with
    | zero => rfl
    | succ m ih => simpa [List.replicate, List.foldl] using ih
  rw [hf]
  rfl

/-- Printed digits contain no whitespace. -/
theorem natToDigitsB_not_space (n : Nat) :
    ∀ c ∈ natToDigitsB n, isSpaceB c = false := by
  intro c hc
  have h := natToDigitsB_digits n c hc
  unfold isSpaceB
  simp only [Bool.or_eq_false_iff, decide_eq_false_iff_not]
  omega

/-- Splitting `<key>=<digits>` on `=` yields the two fields. -/
theorem split_eq_pair (key : Nat) (ds : List Nat) (hkey : key ≠ 61)
    (hds : ∀ c ∈ ds, 48 ≤ c ∧ c ≤ 57) :
    splitOnB 61 (key :: 61 :: ds) = [[key], ds] := by
  rw [splitOnB.eq_2, if_neg hkey, splitOnB.eq_2, if_pos rfl,
    splitOnB_no_sep 61 ds (fun c hc => by have := hds c hc; omega)]

/-- The loop of `parseArgon2ParamString` on the `m=<digits>` pair. -/
theorem applyParamPair_m (params : Argon2Params) (n : Nat)
    (h2 : n < 2 ^ 32) :
    applyParamPair params (109 :: 61 :: natToDigitsB n) =
      { params with memory := n } := by
  unfold applyParamPair
  rw [split_eq_pair 109 (natToDigitsB n) (by omega) (natToDigitsB_digits n)]
  dsimp only
  rw [trimSpaceB_eq_self [109] (by decide),
    trimSpaceB_eq_self (natToDigitsB n) (natToDigitsB_not_space n),
    if_pos (by decide), parseUintB_natToDigitsB n 32 h2]

/-- The loop of `parseArgon2ParamString` on the `t=<digits>` pair. -/
theorem applyParamPair_t (params : Argon2Params) (n : Nat)
    (h2 : n < 2 ^ 32) :
    applyParamPair params (116 :: 61 :: natToDigitsB n) =
      { params with time := n } := by
  unfold applyParamPair
  rw [split_eq_pair 116 (natToDigitsB n) (by omega) (natToDigitsB_digits n)]
  dsimp only
  rw [trimSpaceB_eq_self [116] (by decide),
    trimSpaceB_eq_self (natToDigitsB n) (natToDigitsB_not_space n),
    if_neg (by decide), if_pos (by decide),
    parseUintB_natToDigitsB n 32 h2]

/-- The loop of `parseArgon2ParamString` on the `p=<digits>` pair. -/
theorem applyParamPair_p (params : Argon2Params) (n : Nat)
    (h2 : n < 2 ^ 8) :
    applyParamPair params (112 :: 61 :: natToDigitsB n) =
      { params with threads := n } := by
  unfold applyParamPair
  rw [split_eq_pair 112 (natToDigitsB n) (by omega) (natToDigitsB_digits n)]
  dsimp only
  rw [trimSpaceB_eq_self [112] (by decide),
    trimSpaceB_eq_self (natToDigitsB n) (natToDigitsB_not_space n),
    if_neg (by decide), if_neg (by decide), if_pos (by decide),
    parseUintB_natToDigitsB n 8 h2]

/-- Go `parseArgon2ParamString` recovers the three cost parameters from the
section `m=<memory>,t=<time>,p=<threads>` written by `encodeArgon2Hash`,
with the default key length 32. -/
theorem parseParams_encode (m t p : Nat)
    (hm : 0 < m) (hm2 : m < 2 ^ 32) (ht : 0 < t) (ht2 : t < 2 ^ 32)
    (hp : 0 < p) (hp2 : p < 2 ^ 8) :
    parseArgon2ParamString
      (strBytes "m=" ++ natToDigitsB m ++ strBytes ",t=" ++
        natToDigitsB t ++ strBytes ",p=" ++ natToDigitsB p) =
      .ok ⟨t, m, p, 32⟩ := by
  have h1 : strBytes "m=" = [109, 61] := by decide
  have h2 : strBytes ",t=" = [44, 116, 61] := by decide
  have h3 : strBytes ",p=" = [44, 112, 61] := by decide
  rw [h1, h2, h3]
  have hshape : ([109, 61] : List Nat) ++ natToDigitsB m ++ [44, 116, 61] ++
      natToDigitsB t ++ [44, 112, 61] ++ natToDigitsB p =
      (109 :: 61 :: natToDigitsB m) ++ 44 ::
        ((116 :: 61 :: natToDigitsB t) ++ 44 ::
          (112 :: 61 :: natToDigitsB p)) := by
    simp
  rw [hshape]
  unfold parseArgon2ParamString
  have hA : ∀ c ∈ 109 :: 61 :: natToDigitsB m, c ≠ 44 := by
    intro c hc
    rcases List.mem_cons.mp hc with rfl | hc
    · omega
    rcases List.mem_cons.mp hc with rfl | hc
    · omega
    · have := natToDigitsB_digits m c hc; omega
  have hB : ∀ c ∈ 116 :: 61 :: natToDigitsB t, c ≠ 44 := by
    intro c hc
    rcases List.mem_cons.mp hc with rfl | hc
    · omega
    rcases List.mem_cons.mp hc with rfl | hc
    · omega
    · have := natToDigitsB_digits t c hc; omega
  have hC : ∀ c ∈ 112 :: 61 :: natToDigitsB p, c ≠ 44 := by
    intro c hc
    rcases List.mem_cons.mp hc with rfl | hc
    · omega
    rcases List.mem_cons.mp hc with rfl | hc
    · omega
    · have := natToDigitsB_digits p c hc; omega
  rw [splitOnB_append 44 _ _ hA, splitOnB_append 44 _ _ hB,
    splitOnB_no_sep 44 _ hC]
  simp only [List.foldl, applyParamPair_m _ _ hm2, applyParamPair_t _ _ ht2,
    applyParamPair_p _ _ hp2]
  rw [if_neg (by omega)]

/-- Go `decodeArgon2Hash` inverts `encodeArgon2Hash`: it recovers the salt,
the derived key and the cost parameters (with the default key length 32,
which is not part of the encoded form). -/
theorem decodeArgon2Hash_encodeArgon2Hash (m t p : Nat)
    (salt hash : List Nat)
    (hm : 0 < m) (hm2 : m < 2 ^ 32) (ht : 0 < t) (ht2 : t < 2 ^ 32)
    (hp : 0 < p) (hp2 : p < 2 ^ 8)
    (hsalt : ∀ b ∈ salt, b < 256) (hhash : ∀ b ∈ hash, b < 256) :
    decodeArgon2Hash (encodeArgon2Hash m t p salt hash) =
      .ok (salt, hash, ⟨t, m, p, 32⟩) := by
  have hshape : encodeArgon2Hash m t p salt hash =
      36 :: (([97, 114, 103, 111, 110, 50, 105, 100] : List Nat) ++ 36 ::
        (([118, 61, 49, 57] : List Nat) ++ 36 ::
          ((strBytes "m=" ++ natToDigitsB m ++ strBytes ",t=" ++
            natToDigitsB t ++ strBytes ",p=" ++ natToDigitsB p) ++ 36 ::
            (hexEncodeB salt ++ 36 :: hexEncodeB hash)))) := by
    unfold encodeArgon2Hash
    have h0 : strBytes "$argon2id$v=19$m=" =
        [36, 97, 114, 103, 111, 110, 50, 105, 100, 36, 118, 61, 49, 57,
          36, 109, 61] := by decide
    have h1 : strBytes "m=" = [109, 61] := by decide
    have h2 : strBytes "$" = [36] := by decide
    rw [h0, h1, h2]
    simp
  rw [hshape]
  unfold decodeArgon2Hash
  have hdig : ∀ (n : Nat), ∀ c ∈ natToDigitsB n, c ≠ 36 := by
    intro n c hc
    have := natToDigitsB_digits n c hc
    omega
  have hparam : ∀ c ∈ strBytes "m=" ++ natToDigitsB m ++
      strBytes ",t=" ++ natToDigitsB t ++ strBytes ",p=" ++
      natToDigitsB p, c ≠ 36 := by
    refine List.forall_mem_append.mpr ⟨List.forall_mem_append.mpr
      ⟨List.forall_mem_append.mpr ⟨List.forall_mem_append.mpr
        ⟨List.forall_mem_append.mpr ⟨?_, hdig m⟩, ?_⟩, hdig t⟩, ?_⟩,
      hdig p⟩
    · decide
    · decide
    · decide
  have hhex : ∀ (bs : List Nat), (∀ b ∈ bs, b < 256) →
      ∀ c ∈ hexEncodeB bs, c ≠ 36 := by
    intro bs hbs c hc
    have := hexEncodeB_mem bs hbs c hc
    omega
  rw [splitOnB.eq_2, if_pos rfl,
    splitOnB_append 36 _ _ (by decide),
    splitOnB_append 36 _ _ (by decide),
    splitOnB_append 36 _ _ hparam,
    splitOnB_append 36 _ _ (hhex salt hsalt),
    splitOnB_no_sep 36 _ (hhex hash hhash)]
  dsimp only
  rw [if_pos (by decide),
    parseParams_encode m t p hm hm2 ht ht2 hp hp2]
  dsimp only
  rw [hexDecodeB_hexEncodeB salt hsalt, hexDecodeB_hexEncodeB hash hhash]

/-- Claim C4: for every non-empty password, verification of a hash produced
by `HashPassword` succeeds, and it does so by re-deriving the key with the
cost parameters parsed back out of the stored encoded string —
`ComparePassword` does not receive the current globals at all, so the
result is unchanged when the global cost parameters are later raised.  The
hash-time parameters must be positive and in range (`InitArgon2Params`
parses them into `uint32`/`uint8`), and the key length must be the default
32, since the encoded form does not record it and verification always
re-derives a 32-byte key. -/
theorem comparePassword_hashPassword
    (idKey : List Nat → List Nat → Nat → Nat → Nat → Nat → List Nat)
    (g : Argon2Globals) (salt password : List Nat)
    (hpw : password ≠ [])
    (hm : 0 < g.memory) (hm2 : g.memory < 2 ^ 32)
    (ht : 0 < g.time) (ht2 : g.time < 2 ^ 32)
    (hth : 0 < g.threads) (hth2 : g.threads < 2 ^ 8)
    (hkl : g.keyLength = 32)
    (hsalt : ∀ b ∈ salt, b < 256)
    (hhash : ∀ b ∈ idKey password salt g.time g.memory g.threads
      g.keyLength, b < 256) :
    ∃ encoded, HashPassword idKey g salt password = .ok encoded ∧
      ComparePassword idKey encoded password = .ok () := by
  refine ⟨encodeArgon2Hash g.memory g.time g.threads salt
    (idKey password salt g.time g.memory g.threads g.keyLength), ?_, ?_⟩
  · unfold HashPassword
    rw [if_neg hpw]
  · unfold ComparePassword
    rw [decodeArgon2Hash_encodeArgon2Hash g.memory g.time g.threads salt _
      hm hm2 ht ht2 hth hth2 hsalt hhash]
    dsimp only
    rw [hkl]
    rw [if_neg (by rw [constantTimeCompare_self]; simp)]

/-- Witness for C4: a hash produced under a raised cost setting
(`t=5, m=131072, p=8`) still verifies, with a concrete stand-in for the
KDF. -/
theorem comparePassword_hashPassword_witness :
    password0 ≠ [] ∧
    ∃ encoded, HashPassword idKey0 g1 salt0 password0 = .ok encoded ∧
      ComparePassword idKey0 encoded password0 = .ok () :=
  ⟨by decide,
    comparePassword_hashPassword idKey0 g1 salt0 password0 (by decide)
      (by decide) (by decide) (by decide) (by decide) (by decide)
      (by decide) (by decide) (by decide) (by decide)⟩

end Argon2
